import Mathlib

/-!
Verification development for the crypto/fiat conversion API (`src/main.py`).

Modelling conventions, fixed once for the whole file:

* Python `Decimal` values (the code sets `getcontext().prec = 28` precisely so
  that arithmetic behaves like exact arbitrary-precision decimal arithmetic)
  are modelled as exact rationals `ℚ`.
* `fmt(n)` (line 41-42) quantizes a `Decimal` to 8 fractional digits with the
  default `ROUND_HALF_EVEN` rounding and renders it as a fixed-point string.
  A fixed-8-digit decimal string is in bijection with its scaled integer
  value, so `fmt` is modelled as the function `ℚ → ℤ`,
  `n ↦ roundHalfEven (n * 10^8)`; two `fmt` strings are equal iff the
  corresponding integers are equal.
* Python dicts with string keys are modelled as association lists
  `List (String × ℚ)`; `d[k] = v` is `dictInsert` (which keeps keys unique,
  like a dict), `k in d` is `(List.lookup k d).isSome`, `d.get(k)` is
  `List.lookup k d`, and `d[k]` is the fallible `dictGet` (Python raises
  `KeyError` on a missing key).
* Python truthiness on an optional `Decimal` (`if price:`) is false both for
  `None` and for the value `0`; `truthyVal` maps an `Option ℚ` to `none` in
  both of those cases.  Truthiness of a dict is nonemptiness.
* `Decimal` division by a zero divisor raises (`DivisionByZero` /
  `InvalidOperation`); `dDiv` models it, returning an error on a zero divisor.
* `HTTPException` and the unhandled Python exceptions that can escape the
  handler are gathered in `ConvError`; `statusOf` gives the HTTP status of the
  `HTTPException` values and `none` for unhandled exceptions (which FastAPI
  does not turn into a 4xx/503 response).
* Network fetches are modelled by explicit oracle arguments: `Option`-valued
  parameters describing the outcome of the single upstream request a getter
  would perform (`none` = request/parse failure).  Each cache-aware getter
  returns its result together with the updated cache state and the number of
  upstream fetch attempts it performed (0 or 1).
* `time.time()` is an explicit `now : ℚ` parameter.
-/

deriving instance DecidableEq for Except

namespace CryptoFiat

/-- Python `str.upper()` on the string's character list (the currency codes
and pair symbols handled by the code are ASCII). -/
def pyUpper (s : String) : String :=
  ⟨s.data.map Char.toUpper⟩

/-- Association-list model of a Python dict of `Decimal`s keyed by strings. -/
abbrev StrMap := List (String × ℚ)

/-- The ECB basket mapping (currency code → units per 1 EUR), line 60-63. -/
abbrev Basket := StrMap

/-- The Binance bulk ticker mapping (symbol → price), line 112. -/
abbrev PriceMap := StrMap

/-- Dict assignment `d[k] = v`: overwrites the binding of `k`, keeps all other
keys.  Keys stay unique, matching Python dict semantics. -/
def dictInsert (k : String) (v : ℚ) (m : StrMap) : StrMap :=
  (k, v) :: m.filter (fun p => !(p.1 == k))

/-- Python truthiness of an optional `Decimal`: `None` and `Decimal(0)` are
falsy, every other value is truthy (and the truthy value is returned). -/
def truthyVal (o : Option ℚ) : Option ℚ :=
  match o with
  | none => none
  | some v => if v = 0 then none else some v

/-- The errors a request can end in.  The first five are the
`HTTPException`s raised in `main.py`; the last two are unhandled Python
exceptions (a `Decimal` zero-divisor error from `/`, a `KeyError` from a
`d[k]` lookup) that escape the handler. -/
inductive ConvError where
  | unsupportedPair          -- line 148, 400
  | unsupportedCrypto        -- line 161, 400
  | unsupportedTargetCrypto  -- line 188, 400
  | unsupportedConversion    -- line 216, 400
  | serviceUnavailable       -- line 70, 503
  | decimalInvalidOperation  -- unhandled: Decimal division with zero divisor
  | keyError                 -- unhandled: missing dict key in `d[k]`
  deriving DecidableEq, Repr

/-- HTTP status of an error: `some status` for the `HTTPException`s of
`main.py`, `none` for unhandled exceptions (no 4xx/503 client response). -/
def statusOf : ConvError → Option ℕ
  | ConvError.unsupportedPair => some 400
  | ConvError.unsupportedCrypto => some 400
  | ConvError.unsupportedTargetCrypto => some 400
  | ConvError.unsupportedConversion => some 400
  | ConvError.serviceUnavailable => some 503
  | ConvError.decimalInvalidOperation => none
  | ConvError.keyError => none

/-- A successful conversion response (lines 141-143 etc.).  The numeric
fields hold the exact `Decimal` values the code passes to `fmt`; the JSON
body serializes each of them through `fmt`. -/
structure ConvResult where
  fromC : String
  toC : String
  amount : ℚ
  rate : ℚ
  converted : ℚ
  via : String
  deriving DecidableEq, Repr

/-- `Decimal` division: raises on a zero divisor, else exact quotient. -/
def dDiv (x y : ℚ) : Except ConvError ℚ :=
  if y = 0 then Except.error ConvError.decimalInvalidOperation else Except.ok (x / y)

/-- Python `d[k]`: the value when the key is present, `KeyError` otherwise. -/
def dictGet (m : StrMap) (k : String) : Except ConvError ℚ :=
  match List.lookup k m with
  | some v => Except.ok v
  | none => Except.error ConvError.keyError

/-- Round-half-even of a rational to an integer (`Decimal.quantize` default). -/
def roundHalfEven (q : ℚ) : ℤ :=
  let f := ⌊q⌋
  let r := q - f
  if r < 1/2 then f
  else if 1/2 < r then f + 1
  else if f % 2 = 0 then f else f + 1

/-- `fmt` (line 41-42): quantize to 8 fractional digits, round half even.
The fixed-point string `fmt(n)` is represented by its scaled integer value
`roundHalfEven (n * 10^8)`. -/
def fmt (n : ℚ) : ℤ :=
  roundHalfEven (n * 10 ^ 8)

/-- `ECB_TTL = 60 * 60` (line 37). -/
def ECB_TTL : ℚ := 60 * 60
/-- `BINANCE_TTL = 10` (line 38). -/
def BINANCE_TTL : ℚ := 10
/-- `YAHOO_TTL = 10` (line 39). -/
def YAHOO_TTL : ℚ := 10

/-- `CACHE["ecb"]`: `{"data": None, "timestamp": 0}` initially (line 33). -/
structure EcbCache where
  data : Option Basket
  timestamp : ℚ
  deriving DecidableEq, Repr

/-- `CACHE["binance"]`: `{"data": None, "timestamp": 0}` initially (line 34). -/
structure BinanceCache where
  data : Option PriceMap
  timestamp : ℚ
  deriving DecidableEq, Repr

/-- `CACHE["yahoo"]`: `{"data": {}, "timestamp": 0}` initially (line 35);
one pair-keyed mapping under a single shared timestamp. -/
structure YahooCache where
  data : StrMap
  timestamp : ℚ
  deriving DecidableEq, Repr

/-- Parsing of the fetched ECB XML document (lines 60-63): start from
`{"EUR": Decimal("1.0")}` and insert each `(currency, rate)` cube entry. -/
def ecbParse (entries : List (String × ℚ)) : Basket :=
  entries.foldl (fun m kv => dictInsert kv.1 kv.2 m) [("EUR", 1)]

/-- The fetch-and-fallback part of `get_ecb_rates` (lines 55-70), reached when
the cache is not fresh.  `fetch = some entries` models a successful HTTP fetch
whose XML parses to `entries`; `fetch = none` models any fetch/parse failure.
On failure the stale cache is served if truthy, else a 503 is raised.
Returns (result, new cache, number of upstream fetch attempts). -/
def ecbFetchStep (now : ℚ) (fetch : Option (List (String × ℚ))) (c : EcbCache) :
    Except ConvError Basket × EcbCache × ℕ :=
  match fetch with
  | some entries =>
    let rates := ecbParse entries
    (Except.ok rates, ⟨some rates, now⟩, 1)
  | none =>
    match c.data with
    | some d =>
      if d ≠ [] then (Except.ok d, c, 1)
      else (Except.error ConvError.serviceUnavailable, c, 1)
    | none => (Except.error ConvError.serviceUnavailable, c, 1)

/-- `get_ecb_rates` (lines 50-70): serve the cache when it is truthy and
within `ECB_TTL`, otherwise fetch (with stale-cache fallback on failure). -/
def get_ecb_rates (now : ℚ) (fetch : Option (List (String × ℚ))) (c : EcbCache) :
    Except ConvError Basket × EcbCache × ℕ :=
  match c.data with
  | some d =>
    if d ≠ [] ∧ now - c.timestamp < ECB_TTL then (Except.ok d, c, 0)
    else ecbFetchStep now fetch c
  | none => ecbFetchStep now fetch c

/-- The fetch part of `get_binance_prices` (lines 108-117): `fetch = some m`
models a 200 response whose body parses to the mapping `m` (which is then
cached); `fetch = none` models a non-200 status or an exception, both of
which return `{}` without touching the cache. -/
def binanceFetchStep (now : ℚ) (fetch : Option PriceMap) (c : BinanceCache) :
    PriceMap × BinanceCache × ℕ :=
  match fetch with
  | some prices => (prices, ⟨some prices, now⟩, 1)
  | none => ([], c, 1)

/-- `get_binance_prices` (lines 103-117): serve the cache when it is truthy
(non-`None` and nonempty) and within `BINANCE_TTL`, otherwise fetch. -/
def get_binance_prices (now : ℚ) (fetch : Option PriceMap) (c : BinanceCache) :
    PriceMap × BinanceCache × ℕ :=
  match c.data with
  | some d =>
    if d ≠ [] ∧ now - c.timestamp < BINANCE_TTL then (d, c, 0)
    else binanceFetchStep now fetch c
  | none => binanceFetchStep now fetch c

/-- The pair key `f"{base}{quote}=X"` built by `get_yahoo_rate` (line 78),
after upper-casing both codes (line 77). -/
def yahooKey (base quote : String) : String :=
  pyUpper base ++ pyUpper quote ++ "=X"

/-- The fetch part of `get_yahoo_rate` (lines 84-95): `fetch = some v` models
a successful fetch of the pair's market price `v`, stored under the pair key
with the shared timestamp updated; `fetch = none` models any fetch/parse
error, which returns `None` and leaves the cache untouched. -/
def yahooFetchStep (pair : String) (now : ℚ) (fetch : Option ℚ) (c : YahooCache) :
    Option ℚ × YahooCache × ℕ :=
  match fetch with
  | some value => (some value, YahooCache.mk (dictInsert pair value c.data) now, 1)
  | none => (none, c, 1)

/-- `get_yahoo_rate` (lines 76-95): serve the cached pair when its key is in
the pair mapping *and* the single shared timestamp is within `YAHOO_TTL`;
otherwise fetch.  Returns (result, new cache, fetch attempts). -/
def get_yahoo_rate (base quote : String) (now : ℚ) (fetch : Option ℚ) (c : YahooCache) :
    Option ℚ × YahooCache × ℕ :=
  let pair := yahooKey base quote
  match List.lookup pair c.data with
  | some v =>
    if now - c.timestamp < YAHOO_TTL then (some v, c, 0)
    else yahooFetchStep pair now fetch c
  | none => yahooFetchStep pair now fetch c

/-- The quadrant-routing body of `convert` (lines 136-216), taking the two
currency codes already upper-cased, the fetched ECB basket and Binance price
mapping, and a pure oracle `yahoo` giving the value `get_yahoo_rate` returns
for a `(base, quote)` request (the endpoint calls it at most once per
request, so a pure oracle is faithful for routing).  Each `Decimal` division
of the source goes through `dDiv` and each `d[k]` through `dictGet`; an
`Except.error` arm propagates the raised exception. -/
def convertRoute (fc tc : String) (amount : ℚ) (ecb_rates : Basket)
    (binance_prices : PriceMap) (yahoo : String → String → Option ℚ) :
    Except ConvError ConvResult :=
  -- Crypto → Crypto (line 137)
  if ¬ (List.lookup fc ecb_rates).isSome ∧ ¬ (List.lookup tc ecb_rates).isSome then
    match truthyVal (List.lookup (fc ++ tc) binance_prices) with
    | some direct_price =>
      -- lines 139-143
      Except.ok ⟨fc, tc, amount, direct_price, amount * direct_price, "direct"⟩
    | none =>
      -- lines 145-155: `converted = usd_value / to_usd`, `rate = from_usd / to_usd`
      match truthyVal (List.lookup (fc ++ "USDT") binance_prices),
            truthyVal (List.lookup (tc ++ "USDT") binance_prices) with
      | some from_usd, some to_usd =>
        match dDiv (amount * from_usd) to_usd, dDiv from_usd to_usd with
        | Except.ok converted, Except.ok rate =>
          Except.ok ⟨fc, tc, amount, rate, converted, "USDT"⟩
        | Except.error err, _ => Except.error err
        | _, Except.error err => Except.error err
      | _, _ => Except.error ConvError.unsupportedPair
  -- Crypto → Fiat (line 158)
  else if ¬ (List.lookup fc ecb_rates).isSome ∧ (List.lookup tc ecb_rates).isSome then
    match truthyVal (List.lookup (fc ++ "USDT") binance_prices) with
    | none => Except.error ConvError.unsupportedCrypto
    | some crypto_price_usd =>
      let usd_amount := amount * crypto_price_usd
      -- lines 164-167
      if tc = "USD" then
        Except.ok ⟨fc, tc, amount, crypto_price_usd, usd_amount, "binance"⟩
      else
        match truthyVal (yahoo "USD" tc) with
        | some yahoo_rate =>
          -- lines 169-174
          Except.ok ⟨fc, tc, amount, crypto_price_usd * yahoo_rate,
            usd_amount * yahoo_rate, "binance+yahoo"⟩
        | none =>
          -- lines 176-182: `usd_to_eur = 1 / ecb_rates["USD"]`, then compose
          match dictGet ecb_rates "USD" with
          | Except.error err => Except.error err
          | Except.ok usdBasketRate =>
            match dDiv 1 usdBasketRate with
            | Except.error err => Except.error err
            | Except.ok usd_to_eur =>
              match dictGet ecb_rates tc with
              | Except.error err => Except.error err
              | Except.ok toRate =>
                let eur_amount := usd_amount * usd_to_eur
                let converted := eur_amount * toRate
                let rate := crypto_price_usd * usd_to_eur * toRate
                Except.ok ⟨fc, tc, amount, rate, converted, "binance+ecb"⟩
  -- Fiat → Crypto (line 185)
  else if (List.lookup fc ecb_rates).isSome ∧ ¬ (List.lookup tc ecb_rates).isSome then
    match truthyVal (List.lookup (tc ++ "USDT") binance_prices) with
    | none => Except.error ConvError.unsupportedTargetCrypto
    | some crypto_price_usd =>
      -- line 191-192: `usd_amount = amount * yahoo_rate if yahoo_rate
      --   else (amount / ecb_rates[from_currency] * ecb_rates["USD"])`
      match truthyVal (yahoo fc "USD") with
      | some yahoo_rate =>
        -- `usd_amount = amount * yahoo_rate`; lines 193-198:
        -- `converted = usd_amount / crypto_price_usd`,
        -- `rate = usd_amount / (amount * crypto_price_usd)`
        match dDiv (amount * yahoo_rate) crypto_price_usd,
              dDiv (amount * yahoo_rate) (amount * crypto_price_usd) with
        | Except.ok converted, Except.ok rate =>
          Except.ok ⟨fc, tc, amount, rate, converted, "yahoo+binance"⟩
        | Except.error err, _ => Except.error err
        | _, Except.error err => Except.error err
      | none =>
        match dictGet ecb_rates fc with
        | Except.error err => Except.error err
        | Except.ok fromRate =>
          match dDiv amount fromRate with
          | Except.error err => Except.error err
          | Except.ok eurQuotient =>
            match dictGet ecb_rates "USD" with
            | Except.error err => Except.error err
            | Except.ok usdBasketRate =>
              -- `usd_amount = amount / ecb_rates[from] * ecb_rates["USD"]`
              match dDiv (eurQuotient * usdBasketRate) crypto_price_usd,
                    dDiv (eurQuotient * usdBasketRate) (amount * crypto_price_usd) with
              | Except.ok converted, Except.ok rate =>
                Except.ok ⟨fc, tc, amount, rate, converted, "ecb+binance"⟩
              | Except.error err, _ => Except.error err
              | _, Except.error err => Except.error err
  -- Fiat → Fiat (line 201)
  else if (List.lookup fc ecb_rates).isSome ∧ (List.lookup tc ecb_rates).isSome then
    match truthyVal (yahoo fc tc) with
    | some yahoo_rate =>
      -- lines 203-207
      Except.ok ⟨fc, tc, amount, yahoo_rate, amount * yahoo_rate, "yahoo"⟩
    | none =>
      -- lines 209-214: `eur_amount = amount / ecb_rates[from_currency]`,
      -- `converted = eur_amount * ecb_rates[to_currency]`,
      -- `rate = ecb_rates[to_currency] / ecb_rates[from_currency]`
      match dictGet ecb_rates fc with
      | Except.error err => Except.error err
      | Except.ok fromRate =>
        match dDiv amount fromRate with
        | Except.error err => Except.error err
        | Except.ok eur_amount =>
          match dictGet ecb_rates tc with
          | Except.error err => Except.error err
          | Except.ok toRate =>
            let converted := eur_amount * toRate
            match dDiv toRate fromRate with
            | Except.error err => Except.error err
            | Except.ok rate =>
              Except.ok ⟨fc, tc, amount, rate, converted, "ecb"⟩
  else
    -- line 216
    Except.error ConvError.unsupportedConversion

/-- `convert` (lines 123-216) given the already-fetched provider data: the
codes are upper-cased (lines 129-130) and routed.  `amount` is the exact
value of `Decimal(str(amount))` (line 131). -/
def convert (from_currency to_currency : String) (amount : ℚ) (ecb_rates : Basket)
    (binance_prices : PriceMap) (yahoo : String → String → Option ℚ) :
    Except ConvError ConvResult :=
  convertRoute (pyUpper from_currency) (pyUpper to_currency) amount ecb_rates binance_prices yahoo

/-- The whole cache state (line 32-36). -/
structure Cache where
  ecb : EcbCache
  binance : BinanceCache
  yahoo : YahooCache
  deriving Repr

/-- The outcome of the single upstream request each provider would make
during one request cycle (see the getters' doc comments). -/
structure Upstream where
  ecbFetch : Option (List (String × ℚ))
  binanceFetch : Option PriceMap
  yahooFetch : Option ℚ

/-- The full `/convert` request cycle (lines 123-216): fetch ECB rates (a 503
propagates, line 133), fetch Binance prices (line 134), then route, with the
Yahoo pair provider read through its cache.  Returns the HTTP-level result. -/
def handleConvert (now : ℚ) (up : Upstream) (c : Cache)
    (from_currency to_currency : String) (amount : ℚ) : Except ConvError ConvResult :=
  match (get_ecb_rates now up.ecbFetch c.ecb).1 with
  | Except.error e => Except.error e
  | Except.ok ecb_rates =>
    let binance_prices := (get_binance_prices now up.binanceFetch c.binance).1
    convert from_currency to_currency amount ecb_rates binance_prices
      (fun b q => (get_yahoo_rate b q now up.yahooFetch c.yahoo).1)

/-! ### General lemmas about the embedded operations -/

theorem dDiv_ok {x y z : ℚ} (h : dDiv x y = Except.ok z) : y ≠ 0 ∧ z = x / y := by
  by_cases hy : y = 0
  · simp [dDiv, hy] at h
  · simp [dDiv, hy] at h
    exact ⟨hy, h.symm⟩

theorem dDiv_ok_iff {x y z : ℚ} : dDiv x y = Except.ok z ↔ y ≠ 0 ∧ z = x / y := by
  constructor
  · exact dDiv_ok
  · rintro ⟨hy, rfl⟩
    simp [dDiv, hy]

theorem truthyVal_some_iff {o : Option ℚ} {v : ℚ} :
    truthyVal o = some v ↔ o = some v ∧ v ≠ 0 := by
  cases o with
  | none => simp [truthyVal]
  | some w =>
    by_cases hw : w = 0
    · subst hw
      simp [truthyVal]
      exact fun h => h.symm
    · simp only [truthyVal, if_neg hw, Option.some.injEq]
      constructor
      · rintro rfl
        exact ⟨rfl, hw⟩
      · rintro ⟨rfl, h2⟩
        rfl

theorem dictGet_ok {m : StrMap} {k : String} {v : ℚ} :
    dictGet m k = Except.ok v ↔ List.lookup k m = some v := by
  unfold dictGet
  cases List.lookup k m <;> simp

theorem lookup_filter_ne {k k2 : String} (m : StrMap) (h : ¬ k = k2) :
    List.lookup k (m.filter (fun p => !(p.1 == k2))) = List.lookup k m := by
  induction m with
  | nil => rfl
  | cons q rest ih =>
    cases hq : (q.1 == k2) with
    | false =>
      cases hkq : (k == q.1) <;>
        simp [List.filter_cons, hq, List.lookup, hkq, ih]
    | true =>
      have hkq : (k == q.1) = false := by
        have hq2 : q.1 = k2 := eq_of_beq hq
        exact beq_eq_false_iff_ne.mpr (fun he => h (he.trans hq2))
      simp [List.filter_cons, hq, List.lookup, hkq, ih]

theorem lookup_dictInsert (k k2 : String) (v : ℚ) (m : StrMap) :
    List.lookup k (dictInsert k2 v m) = if k = k2 then some v else List.lookup k m := by
  unfold dictInsert
  by_cases h : k = k2
  · subst h
    simp [List.lookup]
  · have hk : (k == k2) = false := beq_eq_false_iff_ne.mpr h
    simp [List.lookup, h, hk, lookup_filter_ne m h]

/-- The parsed ECB basket is never the empty mapping: parsing starts from
`{"EUR": 1}` and `dictInsert` preserves nonemptiness, so a cached basket
(which always comes from a successful parse) is always dict-truthy. -/
theorem ecbParse_ne_nil (entries : List (String × ℚ)) : ecbParse entries ≠ [] := by
  have key : ∀ (l : List (String × ℚ)) (init : StrMap), init ≠ [] →
      l.foldl (fun m kv => dictInsert kv.1 kv.2 m) init ≠ [] := by
    intro l
    induction l with
    | nil => exact fun init h => h
    | cons q rest ih =>
      intro init h
      exact ih _ (by simp [dictInsert])
  exact key entries _ (by simp)

/-- When the ECB fetch fails but a truthy (nonempty) basket is cached, the
stale basket is served no matter how old it is (lines 66-69). -/
theorem get_ecb_rates_stale_served {now : ℚ} {c : EcbCache} {b : Basket}
    (hd : c.data = some b) (hb : b ≠ []) :
    (get_ecb_rates now none c).1 = Except.ok b := by
  unfold get_ecb_rates ecbFetchStep
  rw [hd]
  dsimp only
  by_cases hf : now - c.timestamp < ECB_TTL
  · rw [if_pos ⟨hb, hf⟩]
  · rw [if_neg (fun hcon => hf hcon.2)]
    rw [if_pos hb]

/-- When the ECB fetch fails and no truthy basket is cached, a 503 is raised
(line 70). -/
theorem get_ecb_rates_unavailable {now : ℚ} {c : EcbCache}
    (hd : c.data = none ∨ c.data = some []) :
    (get_ecb_rates now none c).1 = Except.error ConvError.serviceUnavailable := by
  rcases hd with hd | hd
  · unfold get_ecb_rates ecbFetchStep
    rw [hd]
  · unfold get_ecb_rates ecbFetchStep
    rw [hd]
    dsimp only
    rw [if_neg (fun hcon => hcon.1 rfl)]
    rw [if_neg (fun hcon => hcon rfl)]

/-- If a call to `get_ecb_rates` with a successful fetch outcome actually
fetched (fetch count 1), the new cache holds the parsed basket stamped with
the call time (line 64). -/
theorem get_ecb_rates_fetched {t : ℚ} {entries : List (String × ℚ)} {c : EcbCache}
    (h : (get_ecb_rates t (some entries) c).2.2 = 1) :
    (get_ecb_rates t (some entries) c).2.1 = ⟨some (ecbParse entries), t⟩ := by
  cases hd : c.data with
  | none => simp [get_ecb_rates, ecbFetchStep, hd]
  | some d =>
    by_cases hfresh : d ≠ [] ∧ t - c.timestamp < ECB_TTL
    · rw [show (get_ecb_rates t (some entries) c).2.2 = 0 from by
        simp [get_ecb_rates, hd, hfresh]] at h
      cases h
    · simp [get_ecb_rates, ecbFetchStep, hd, hfresh]

/-- Same for `get_binance_prices` (line 113): after an actual successful
fetch the cache holds the fetched mapping stamped with the call time. -/
theorem get_binance_prices_fetched {t : ℚ} {prices : PriceMap} {c : BinanceCache}
    (h : (get_binance_prices t (some prices) c).2.2 = 1) :
    (get_binance_prices t (some prices) c).2.1 = ⟨some prices, t⟩ := by
  cases hd : c.data with
  | none => simp [get_binance_prices, binanceFetchStep, hd]
  | some d =>
    by_cases hfresh : d ≠ [] ∧ t - c.timestamp < BINANCE_TTL
    · rw [show (get_binance_prices t (some prices) c).2.2 = 0 from by
        simp [get_binance_prices, hd, hfresh]] at h
      cases h
    · simp [get_binance_prices, binanceFetchStep, hd, hfresh]

/-- Same for `get_yahoo_rate` (lines 90-91): after an actual successful fetch
the pair's value is stored under its key and the shared timestamp is set. -/
theorem get_yahoo_rate_fetched {b q : String} {t v : ℚ} {c : YahooCache}
    (h : (get_yahoo_rate b q t (some v) c).2.2 = 1) :
    (get_yahoo_rate b q t (some v) c).2.1
      = ⟨dictInsert (yahooKey b q) v c.data, t⟩ := by
  cases hl : List.lookup (yahooKey b q) c.data with
  | none => simp [get_yahoo_rate, yahooFetchStep, hl]
  | some w =>
    by_cases hfresh : t - c.timestamp < YAHOO_TTL
    · rw [show (get_yahoo_rate b q t (some v) c).2.2 = 0 from by
        simp [get_yahoo_rate, hl, hfresh]] at h
      cases h
    · simp [get_yahoo_rate, yahooFetchStep, hl, hfresh]

theorem fc_identity {a p ua : ℚ} (h : a * p ≠ 0) : a * (ua / (a * p)) = ua / p := by
  have ha : a ≠ 0 := left_ne_zero_of_mul h
  have hp : p ≠ 0 := right_ne_zero_of_mul h
  field_simp
  ring

/-! ### Claims -/

/-- C1: for every conversion request that returns a success result (any of the
four quadrants, any `via` tag), the returned `converted` field equals
`amount * rate` after quantizing each to 8 fractional decimal digits:
`fmt(converted) = fmt(amount * rate)`.  (In the exact-decimal model the two
values agree before quantization in every success branch.) -/
theorem claim1_converted_eq_amount_times_rate
    (from_currency to_currency : String) (amount : ℚ) (ecb_rates : Basket)
    (binance_prices : PriceMap) (yahoo : String → String → Option ℚ) (r : ConvResult)
    (h : convert from_currency to_currency amount ecb_rates binance_prices yahoo = Except.ok r) :
    fmt r.converted = fmt (r.amount * r.rate) := by
  unfold convert convertRoute at h
  repeat' split at h
  all_goals (try cases h)
  all_goals (try rfl)
  all_goals (try simp_all only [dDiv_ok_iff, ne_eq])
  all_goals
    first
    | (congr 1; ring1)
    | (rename_i hc hr
       exact congrArg fmt (fc_identity hr.1).symm)

/-- C2 (amended): Crypto → Crypto routing.  The code tests Python truthiness,
not key presence, so the direct branch is taken exactly when `from+to` maps to
a *nonzero* price, and the USDT bridge requires both `from+USDT` and
`to+USDT` to be present *and nonzero*; otherwise a 400 `UnsupportedPair`
is raised. -/
theorem claim2_crypto_to_crypto
    (fc tc : String) (amount : ℚ) (ecb_rates : Basket) (binance_prices : PriceMap)
    (yahoo : String → String → Option ℚ)
    (hfc : List.lookup fc ecb_rates = none) (htc : List.lookup tc ecb_rates = none) :
    (∀ d, truthyVal (List.lookup (fc ++ tc) binance_prices) = some d →
      convertRoute fc tc amount ecb_rates binance_prices yahoo
        = Except.ok ⟨fc, tc, amount, d, amount * d, "direct"⟩)
    ∧ (truthyVal (List.lookup (fc ++ tc) binance_prices) = none →
        ((truthyVal (List.lookup (fc ++ "USDT") binance_prices) = none ∨
          truthyVal (List.lookup (tc ++ "USDT") binance_prices) = none) →
          convertRoute fc tc amount ecb_rates binance_prices yahoo
            = Except.error ConvError.unsupportedPair
          ∧ statusOf ConvError.unsupportedPair = some 400)
        ∧ (∀ f t, truthyVal (List.lookup (fc ++ "USDT") binance_prices) = some f →
            truthyVal (List.lookup (tc ++ "USDT") binance_prices) = some t →
            convertRoute fc tc amount ecb_rates binance_prices yahoo
              = Except.ok ⟨fc, tc, amount, f / t, amount * f / t, "USDT"⟩)) := by
  have hcond : ¬ (List.lookup fc ecb_rates).isSome ∧ ¬ (List.lookup tc ecb_rates).isSome := by
    simp [hfc, htc]
  refine ⟨?_, fun hdir => ⟨?_, ?_⟩⟩
  · intro d hd
    unfold convertRoute
    rw [if_pos hcond, hd]
  · intro habs
    rcases habs with habs | habs
    · unfold convertRoute
      rw [if_pos hcond, hdir, habs]
      exact ⟨rfl, rfl⟩
    · unfold convertRoute
      rw [if_pos hcond, hdir]
      rcases hf : truthyVal (List.lookup (fc ++ "USDT") binance_prices) with _ | f
      · exact ⟨rfl, rfl⟩
      · rw [habs]
        exact ⟨rfl, rfl⟩
  · intro f t hf ht
    have ht0 : t ≠ 0 := (truthyVal_some_iff.mp ht).2
    unfold convertRoute
    rw [if_pos hcond, hdir, hf, ht]
    dsimp only
    rw [show dDiv (amount * f) t = Except.ok (amount * f / t) from by simp [dDiv, ht0],
        show dDiv f t = Except.ok (f / t) from by simp [dDiv, ht0]]

/-- C3 (amended): Crypto → Fiat routing when the target is USD.  The support
check is Python truthiness, so a missing *or zero-valued* `from+USDT` price
raises a 400 `UnsupportedCrypto`; with a nonzero `from+USDT` price and
`to = USD` the result is `rate = price`, `converted = amount * price`,
`via = binance`. -/
theorem claim3_crypto_to_fiat_usd
    (fc tc : String) (amount : ℚ) (ecb_rates : Basket) (binance_prices : PriceMap)
    (yahoo : String → String → Option ℚ)
    (hfc : List.lookup fc ecb_rates = none) (htc : (List.lookup tc ecb_rates).isSome) :
    (truthyVal (List.lookup (fc ++ "USDT") binance_prices) = none →
      convertRoute fc tc amount ecb_rates binance_prices yahoo
        = Except.error ConvError.unsupportedCrypto
      ∧ statusOf ConvError.unsupportedCrypto = some 400)
    ∧ (∀ pr, truthyVal (List.lookup (fc ++ "USDT") binance_prices) = some pr →
        tc = "USD" →
        convertRoute fc tc amount ecb_rates binance_prices yahoo
          = Except.ok ⟨fc, tc, amount, pr, amount * pr, "binance"⟩) := by
  have hcond1 : ¬ (¬ (List.lookup fc ecb_rates).isSome ∧ ¬ (List.lookup tc ecb_rates).isSome) := by
    simp [htc]
  have hcond2 : ¬ (List.lookup fc ecb_rates).isSome ∧ (List.lookup tc ecb_rates).isSome := by
    simp [hfc, htc]
  constructor
  · intro habs
    unfold convertRoute
    rw [if_neg hcond1, if_pos hcond2, habs]
    exact ⟨rfl, rfl⟩
  · intro pr hpr htusd
    subst htusd
    unfold convertRoute
    rw [if_neg hcond1, if_pos hcond2, hpr]
    dsimp only
    rw [if_pos rfl]

/-- C5 (amended): Fiat → Fiat routing.  The pair provider's value goes
through the same truthiness test, so the `via = yahoo` branch fires exactly
when it yields a *nonzero* rate; on `None` *or zero* the basket cross-rate
answers: `rate = basket[to] / basket[from]`,
`converted = amount / basket[from] * basket[to]`, `via = ecb` (well-defined
when `basket[from] ≠ 0`; a zero `basket[from]` would raise a decimal
division error instead). -/
theorem claim5_fiat_to_fiat
    (fc tc : String) (amount : ℚ) (ecb_rates : Basket) (binance_prices : PriceMap)
    (yahoo : String → String → Option ℚ) (bf bt : ℚ)
    (hbf : List.lookup fc ecb_rates = some bf) (hbt : List.lookup tc ecb_rates = some bt) :
    (∀ yr, truthyVal (yahoo fc tc) = some yr →
      convertRoute fc tc amount ecb_rates binance_prices yahoo
        = Except.ok ⟨fc, tc, amount, yr, amount * yr, "yahoo"⟩)
    ∧ (truthyVal (yahoo fc tc) = none → bf ≠ 0 →
      convertRoute fc tc amount ecb_rates binance_prices yahoo
        = Except.ok ⟨fc, tc, amount, bt / bf, amount / bf * bt, "ecb"⟩) := by
  have hfs : (List.lookup fc ecb_rates).isSome := by simp [hbf]
  have hts : (List.lookup tc ecb_rates).isSome := by simp [hbt]
  have hcond1 : ¬ (¬ (List.lookup fc ecb_rates).isSome ∧ ¬ (List.lookup tc ecb_rates).isSome) := by
    simp [hfs]
  have hcond2 : ¬ (¬ (List.lookup fc ecb_rates).isSome ∧ (List.lookup tc ecb_rates).isSome) := by
    simp [hfs]
  have hcond3 : ¬ ((List.lookup fc ecb_rates).isSome ∧ ¬ (List.lookup tc ecb_rates).isSome) := by
    simp [hfs, hts]
  have hcond4 : (List.lookup fc ecb_rates).isSome ∧ (List.lookup tc ecb_rates).isSome :=
    ⟨hfs, hts⟩
  constructor
  · intro yr hyr
    unfold convertRoute
    rw [if_neg hcond1, if_neg hcond2, if_neg hcond3, if_pos hcond4, hyr]
  · intro hyn hbf0
    unfold convertRoute
    rw [if_neg hcond1, if_neg hcond2, if_neg hcond3, if_pos hcond4, hyn]
    dsimp only
    rw [show dictGet ecb_rates fc = Except.ok bf from by simp [dictGet, hbf]]
    dsimp only
    rw [show dDiv amount bf = Except.ok (amount / bf) from by simp [dDiv, hbf0]]
    dsimp only
    rw [show dictGet ecb_rates tc = Except.ok bt from by simp [dictGet, hbt]]
    dsimp only
    rw [show dDiv bt bf = Except.ok (bt / bf) from by simp [dDiv, hbf0]]

/-- C9: a Fiat → Crypto request with `amount = 0` and a supported (nonzero)
target-crypto price reaches `rate = usd_amount / (amount * crypto_price_usd)`
(line 194), whose divisor is `0 * price = 0`, so the `Decimal` division
raises an unhandled arithmetic error — no conversion result and no 4xx
client response (`statusOf` is `none`).  This holds on the Yahoo path, and
on the ECB fallback path provided `USD` is a basket key (the `converted`
division at line 193 succeeds first because the target price is nonzero). -/
theorem claim9_zero_amount_division_error
    (fc tc : String) (ecb_rates : Basket) (binance_prices : PriceMap)
    (yahoo : String → String → Option ℚ) (bf pr : ℚ)
    (hbf : List.lookup fc ecb_rates = some bf) (htc : List.lookup tc ecb_rates = none)
    (hpr : truthyVal (List.lookup (tc ++ "USDT") binance_prices) = some pr) :
    (∀ yr, truthyVal (yahoo fc "USD") = some yr →
      convertRoute fc tc 0 ecb_rates binance_prices yahoo
        = Except.error ConvError.decimalInvalidOperation)
    ∧ (truthyVal (yahoo fc "USD") = none → (List.lookup "USD" ecb_rates).isSome →
      convertRoute fc tc 0 ecb_rates binance_prices yahoo
        = Except.error ConvError.decimalInvalidOperation)
    ∧ statusOf ConvError.decimalInvalidOperation = none := by
  have hpr0 : pr ≠ 0 := (truthyVal_some_iff.mp hpr).2
  have hfs : (List.lookup fc ecb_rates).isSome := by simp [hbf]
  have hcond1 : ¬ (¬ (List.lookup fc ecb_rates).isSome ∧ ¬ (List.lookup tc ecb_rates).isSome) := by
    simp [hfs]
  have hcond2 : ¬ (¬ (List.lookup fc ecb_rates).isSome ∧ (List.lookup tc ecb_rates).isSome) := by
    simp [hfs]
  have hcond3 : (List.lookup fc ecb_rates).isSome ∧ ¬ (List.lookup tc ecb_rates).isSome := by
    simp [hfs, htc]
  refine ⟨?_, ?_, rfl⟩
  · intro yr hyr
    unfold convertRoute
    rw [if_neg hcond1, if_neg hcond2, if_pos hcond3, hpr, hyr]
    dsimp only
    rw [show dDiv (0 * yr) pr = Except.ok (0 * yr / pr) from by simp [dDiv, hpr0],
        show dDiv (0 * yr) (0 * pr) = Except.error ConvError.decimalInvalidOperation from by
          simp [dDiv]]
  · intro hyn husd
    obtain ⟨busd, hbusd⟩ := Option.isSome_iff_exists.mp husd
    unfold convertRoute
    rw [if_neg hcond1, if_neg hcond2, if_pos hcond3, hpr, hyn]
    dsimp only
    rw [show dictGet ecb_rates fc = Except.ok bf from by simp [dictGet, hbf]]
    dsimp only
    by_cases hbf0 : bf = 0
    · rw [show dDiv 0 bf = Except.error ConvError.decimalInvalidOperation from by
        simp [dDiv, hbf0]]
    · rw [show dDiv 0 bf = Except.ok (0 / bf) from by simp [dDiv, hbf0]]
      dsimp only
      rw [show dictGet ecb_rates "USD" = Except.ok busd from by simp [dictGet, hbusd]]
      dsimp only
      rw [show dDiv (0 / bf * busd) pr = Except.ok (0 / bf * busd / pr) from by
            simp [dDiv, hpr0],
          show dDiv (0 / bf * busd) (0 * pr) = Except.error ConvError.decimalInvalidOperation
            from by simp [dDiv]]

/-- C10: every provider-presence check in the router is a Python truthiness
test, so a value of exactly 0 behaves like absence: (1) a direct crypto
symbol listed at price 0 falls through to the USDT bridge; (2) a `from+USDT`
price of 0 yields the 400 `UnsupportedPair` in the Crypto → Crypto quadrant;
(3) a `from+USDT` price of 0 yields the 400 `UnsupportedCrypto` in the
Crypto → Fiat quadrant; (4) a fiat-pair rate of 0 triggers the basket
fallback with `via = ecb`. -/
theorem claim10_zero_treated_as_absent :
    (∀ fc tc amount ecb_rates binance_prices yahoo f t,
       List.lookup fc ecb_rates = none → List.lookup tc ecb_rates = none →
       List.lookup (fc ++ tc) binance_prices = some 0 →
       truthyVal (List.lookup (fc ++ "USDT") binance_prices) = some f →
       truthyVal (List.lookup (tc ++ "USDT") binance_prices) = some t →
       convertRoute fc tc amount ecb_rates binance_prices yahoo
         = Except.ok ⟨fc, tc, amount, f / t, amount * f / t, "USDT"⟩)
    ∧ (∀ fc tc amount ecb_rates binance_prices yahoo,
       List.lookup fc ecb_rates = none → List.lookup tc ecb_rates = none →
       truthyVal (List.lookup (fc ++ tc) binance_prices) = none →
       List.lookup (fc ++ "USDT") binance_prices = some 0 →
       convertRoute fc tc amount ecb_rates binance_prices yahoo
         = Except.error ConvError.unsupportedPair
       ∧ statusOf ConvError.unsupportedPair = some 400)
    ∧ (∀ fc tc amount ecb_rates binance_prices yahoo,
       List.lookup fc ecb_rates = none → (List.lookup tc ecb_rates).isSome →
       List.lookup (fc ++ "USDT") binance_prices = some 0 →
       convertRoute fc tc amount ecb_rates binance_prices yahoo
         = Except.error ConvError.unsupportedCrypto
       ∧ statusOf ConvError.unsupportedCrypto = some 400)
    ∧ (∀ fc tc amount ecb_rates binance_prices yahoo bf bt,
       List.lookup fc ecb_rates = some bf → List.lookup tc ecb_rates = some bt →
       yahoo fc tc = some 0 → bf ≠ 0 →
       convertRoute fc tc amount ecb_rates binance_prices yahoo
         = Except.ok ⟨fc, tc, amount, bt / bf, amount / bf * bt, "ecb"⟩) := by
  refine ⟨?_, ?_, ?_, ?_⟩
  · intro fc tc amount ecb_rates binance_prices yahoo f t hfc htc hzero hf ht
    have hcond : ¬ (List.lookup fc ecb_rates).isSome ∧ ¬ (List.lookup tc ecb_rates).isSome := by
      simp [hfc, htc]
    have hdir : truthyVal (List.lookup (fc ++ tc) binance_prices) = none := by
      simp [hzero, truthyVal]
    have ht0 : t ≠ 0 := (truthyVal_some_iff.mp ht).2
    unfold convertRoute
    rw [if_pos hcond, hdir, hf, ht]
    dsimp only
    rw [show dDiv (amount * f) t = Except.ok (amount * f / t) from by simp [dDiv, ht0],
        show dDiv f t = Except.ok (f / t) from by simp [dDiv, ht0]]
  · intro fc tc amount ecb_rates binance_prices yahoo hfc htc hdir hzero
    have hcond : ¬ (List.lookup fc ecb_rates).isSome ∧ ¬ (List.lookup tc ecb_rates).isSome := by
      simp [hfc, htc]
    have hfu : truthyVal (List.lookup (fc ++ "USDT") binance_prices) = none := by
      simp [hzero, truthyVal]
    unfold convertRoute
    rw [if_pos hcond, hdir, hfu]
    exact ⟨rfl, rfl⟩
  · intro fc tc amount ecb_rates binance_prices yahoo hfc htc hzero
    have hcond1 : ¬ (¬ (List.lookup fc ecb_rates).isSome ∧
        ¬ (List.lookup tc ecb_rates).isSome) := by
      simp [htc]
    have hcond2 : ¬ (List.lookup fc ecb_rates).isSome ∧ (List.lookup tc ecb_rates).isSome := by
      simp [hfc, htc]
    have hfu : truthyVal (List.lookup (fc ++ "USDT") binance_prices) = none := by
      simp [hzero, truthyVal]
    unfold convertRoute
    rw [if_neg hcond1, if_pos hcond2, hfu]
    exact ⟨rfl, rfl⟩
  · intro fc tc amount ecb_rates binance_prices yahoo bf bt hbf hbt hy0 hbf0
    have hfs : (List.lookup fc ecb_rates).isSome := by simp [hbf]
    have hts : (List.lookup tc ecb_rates).isSome := by simp [hbt]
    have hcond1 : ¬ (¬ (List.lookup fc ecb_rates).isSome ∧
        ¬ (List.lookup tc ecb_rates).isSome) := by
      simp [hfs]
    have hcond2 : ¬ (¬ (List.lookup fc ecb_rates).isSome ∧
        (List.lookup tc ecb_rates).isSome) := by
      simp [hfs]
    have hcond3 : ¬ ((List.lookup fc ecb_rates).isSome ∧
        ¬ (List.lookup tc ecb_rates).isSome) := by
      simp [hfs, hts]
    have hyn : truthyVal (yahoo fc tc) = none := by simp [hy0, truthyVal]
    unfold convertRoute
    rw [if_neg hcond1, if_neg hcond2, if_neg hcond3, if_pos ⟨hfs, hts⟩, hyn]
    dsimp only
    rw [show dictGet ecb_rates fc = Except.ok bf from by simp [dictGet, hbf]]
    dsimp only
    rw [show dDiv amount bf = Except.ok (amount / bf) from by simp [dDiv, hbf0]]
    dsimp only
    rw [show dictGet ecb_rates tc = Except.ok bt from by simp [dictGet, hbt]]
    dsimp only
    rw [show dDiv bt bf = Except.ok (bt / bf) from by simp [dDiv, hbf0]]

/-- C4: when the fiat basket fetch fails, a previously cached basket — even
one older than the 1-hour TTL, since the stale-serving branch checks no
timestamp — is returned and the request proceeds exactly as if that basket
had been fetched; with no cached basket the request fails 503
`UpstreamUnavailable`, for every pair of currency codes (including pure
crypto → crypto requests), because `get_ecb_rates` runs before any quadrant
is chosen (line 133).  The third conjunct shows every cached basket is
dict-truthy (parsing always inserts EUR), so the `b ≠ []` hypothesis of the
first conjunct covers all reachable caches. -/
theorem claim4_basket_failure_policy
    (now : ℚ) (up : Upstream) (c : Cache) (from_currency to_currency : String) (amount : ℚ)
    (hfail : up.ecbFetch = none) :
    (∀ b, c.ecb.data = some b → b ≠ [] →
      handleConvert now up c from_currency to_currency amount
        = convert from_currency to_currency amount b
            ((get_binance_prices now up.binanceFetch c.binance).1)
            (fun base quote => (get_yahoo_rate base quote now up.yahooFetch c.yahoo).1))
    ∧ ((c.ecb.data = none ∨ c.ecb.data = some []) →
      handleConvert now up c from_currency to_currency amount
        = Except.error ConvError.serviceUnavailable
      ∧ statusOf ConvError.serviceUnavailable = some 503)
    ∧ (∀ entries, ecbParse entries ≠ []) := by
  refine ⟨?_, ?_, ecbParse_ne_nil⟩
  · intro b hb hbne
    unfold handleConvert
    rw [hfail, get_ecb_rates_stale_served hb hbne]
  · intro hd
    unfold handleConvert
    rw [hfail, get_ecb_rates_unavailable hd]
    exact ⟨rfl, rfl⟩

/-- C6: `get_yahoo_rate` serves from cache exactly when the pair key is in
the pair mapping AND the single shared timestamp is within the 10-second
TTL (first conjunct, an iff on the fetch count); consequently (second and
fourth conjuncts) a pair value stored arbitrarily long ago is served without
refetching whenever the key is present and the shared timestamp is fresh —
in particular right after any *other* pair was fetched within the last 10
seconds — and conversely (third conjunct) once the shared timestamp is 10+
seconds old every read refetches, even of a key that is present. -/
theorem claim6_shared_timestamp_cache :
    (∀ (base quote : String) (now : ℚ) (fetch : Option ℚ) (c : YahooCache),
      ((get_yahoo_rate base quote now fetch c).2.2 = 0 ↔
        (List.lookup (yahooKey base quote) c.data).isSome ∧ now - c.timestamp < YAHOO_TTL))
    ∧ (∀ (base quote : String) (now : ℚ) (fetch : Option ℚ) (c : YahooCache) (v : ℚ),
      List.lookup (yahooKey base quote) c.data = some v →
      now - c.timestamp < YAHOO_TTL →
      get_yahoo_rate base quote now fetch c = (some v, c, 0))
    ∧ (∀ (base quote : String) (now : ℚ) (fetch : Option ℚ) (c : YahooCache),
      ¬ (now - c.timestamp < YAHOO_TTL) →
      (get_yahoo_rate base quote now fetch c).2.2 = 1)
    ∧ (∀ (b1 q1 b2 q2 : String) (t2 v2 now : ℚ) (fetch : Option ℚ) (c : YahooCache),
      (List.lookup (yahooKey b1 q1) c.data).isSome →
      ¬ (t2 - c.timestamp < YAHOO_TTL) →
      now - t2 < YAHOO_TTL →
      (get_yahoo_rate b1 q1 now fetch
        ((get_yahoo_rate b2 q2 t2 (some v2) c).2.1)).2.2 = 0) := by
  refine ⟨?_, ?_, ?_, ?_⟩
  · intro base quote now fetch c
    cases hl : List.lookup (yahooKey base quote) c.data with
    | none =>
      cases fetch <;> simp [get_yahoo_rate, yahooFetchStep, hl]
    | some v =>
      by_cases hf : now - c.timestamp < YAHOO_TTL
      · simp [get_yahoo_rate, hl, hf]
      · cases fetch <;> simp [get_yahoo_rate, yahooFetchStep, hl, hf]
  · intro base quote now fetch c v hv hf
    simp [get_yahoo_rate, hv, hf]
  · intro base quote now fetch c hstale
    cases hl : List.lookup (yahooKey base quote) c.data with
    | none => cases fetch <;> simp [get_yahoo_rate, yahooFetchStep, hl]
    | some v => cases fetch <;> simp [get_yahoo_rate, yahooFetchStep, hl, hstale]
  · intro b1 q1 b2 q2 t2 v2 now fetch c hkey hstale hfresh
    have hstep : (get_yahoo_rate b2 q2 t2 (some v2) c).2.1
        = ⟨dictInsert (yahooKey b2 q2) v2 c.data, t2⟩ := by
      cases hl : List.lookup (yahooKey b2 q2) c.data with
      | none => simp [get_yahoo_rate, yahooFetchStep, hl]
      | some w => simp [get_yahoo_rate, yahooFetchStep, hl, hstale]
    rw [hstep]
    have hsome : (List.lookup (yahooKey b1 q1)
        (dictInsert (yahooKey b2 q2) v2 c.data)).isSome := by
      rw [lookup_dictInsert]
      by_cases he : yahooKey b1 q1 = yahooKey b2 q2 <;> simp [he, hkey]
    obtain ⟨w, hw⟩ := Option.isSome_iff_exists.mp hsome
    simp [get_yahoo_rate, hw, hfresh]

/-- C7 (amended): for each source, after a call that actually performed a
successful upstream fetch, a second read within the TTL performs no fetch and
a read at or past the TTL performs exactly one — with one proviso forced by
the counterexample: for the bulk crypto source the cached snapshot must be
nonempty (`prices ≠ []`), because the cache-hit test is dict truthiness and
a successfully fetched empty mapping is refetched on every read.  The ECB
basket needs no such proviso (`ecbParse` output is never empty), and the
pair source checks key presence, which a successful fetch guarantees. -/
theorem claim7_ttl_freshness :
    (∀ (c : EcbCache) (t : ℚ) entries (now : ℚ) fetch2,
      (get_ecb_rates t (some entries) c).2.2 = 1 →
      (now - t < ECB_TTL →
        (get_ecb_rates now fetch2 ((get_ecb_rates t (some entries) c).2.1)).2.2 = 0)
      ∧ (¬ (now - t < ECB_TTL) →
        (get_ecb_rates now fetch2 ((get_ecb_rates t (some entries) c).2.1)).2.2 = 1))
    ∧ (∀ (c : BinanceCache) (t : ℚ) prices (now : ℚ) fetch2,
      (get_binance_prices t (some prices) c).2.2 = 1 →
      (prices ≠ [] → now - t < BINANCE_TTL →
        (get_binance_prices now fetch2 ((get_binance_prices t (some prices) c).2.1)).2.2 = 0)
      ∧ (¬ (now - t < BINANCE_TTL) →
        (get_binance_prices now fetch2 ((get_binance_prices t (some prices) c).2.1)).2.2 = 1))
    ∧ (∀ (c : YahooCache) (b q : String) (t v now : ℚ) fetch2,
      (get_yahoo_rate b q t (some v) c).2.2 = 1 →
      (now - t < YAHOO_TTL →
        (get_yahoo_rate b q now fetch2 ((get_yahoo_rate b q t (some v) c).2.1)).2.2 = 0)
      ∧ (¬ (now - t < YAHOO_TTL) →
        (get_yahoo_rate b q now fetch2 ((get_yahoo_rate b q t (some v) c).2.1)).2.2 = 1)) := by
  refine ⟨?_, ?_, ?_⟩
  · intro c t entries now fetch2 h
    rw [get_ecb_rates_fetched h]
    constructor
    · intro hfresh
      simp [get_ecb_rates, ecbParse_ne_nil, hfresh]
    · intro hstale
      have hcond : ¬ (ecbParse entries ≠ [] ∧ now - t < ECB_TTL) := fun hc => hstale hc.2
      cases fetch2 <;> simp [get_ecb_rates, ecbFetchStep, hcond, hstale, ecbParse_ne_nil]
  · intro c t prices now fetch2 h
    rw [get_binance_prices_fetched h]
    constructor
    · intro hne hfresh
      simp [get_binance_prices, hne, hfresh]
    · intro hstale
      have hcond : ¬ (prices ≠ [] ∧ now - t < BINANCE_TTL) := fun hc => hstale hc.2
      cases fetch2 <;> simp [get_binance_prices, binanceFetchStep, hcond]
  · intro c b q t v now fetch2 h
    rw [get_yahoo_rate_fetched h]
    constructor
    · intro hfresh
      have hl : List.lookup (yahooKey b q) (dictInsert (yahooKey b q) v c.data) = some v := by
        rw [lookup_dictInsert]
        simp
      simp [get_yahoo_rate, hl, hfresh]
    · intro hstale
      have hl : List.lookup (yahooKey b q) (dictInsert (yahooKey b q) v c.data) = some v := by
        rw [lookup_dictInsert]
        simp
      cases fetch2 <;> simp [get_yahoo_rate, yahooFetchStep, hl, hstale]

/-- Helper: the Fiat → Fiat basket-fallback branch (shared by several
round-trip facts). -/
theorem convertRoute_ff_ecb
    (fc tc : String) (amount : ℚ) (ecb_rates : Basket) (binance_prices : PriceMap)
    (yahoo : String → String → Option ℚ) (bf bt : ℚ)
    (hbf : List.lookup fc ecb_rates = some bf) (hbt : List.lookup tc ecb_rates = some bt)
    (hyn : truthyVal (yahoo fc tc) = none) (hbf0 : bf ≠ 0) :
    convertRoute fc tc amount ecb_rates binance_prices yahoo
      = Except.ok ⟨fc, tc, amount, bt / bf, amount / bf * bt, "ecb"⟩ := by
  have hfs : (List.lookup fc ecb_rates).isSome := by simp [hbf]
  have hts : (List.lookup tc ecb_rates).isSome := by simp [hbt]
  have hcond1 : ¬ (¬ (List.lookup fc ecb_rates).isSome ∧
      ¬ (List.lookup tc ecb_rates).isSome) := by simp [hfs]
  have hcond2 : ¬ (¬ (List.lookup fc ecb_rates).isSome ∧
      (List.lookup tc ecb_rates).isSome) := by simp [hfs]
  have hcond3 : ¬ ((List.lookup fc ecb_rates).isSome ∧
      ¬ (List.lookup tc ecb_rates).isSome) := by simp [hfs, hts]
  unfold convertRoute
  rw [if_neg hcond1, if_neg hcond2, if_neg hcond3, if_pos ⟨hfs, hts⟩, hyn]
  dsimp only
  rw [show dictGet ecb_rates fc = Except.ok bf from by simp [dictGet, hbf]]
  dsimp only
  rw [show dDiv amount bf = Except.ok (amount / bf) from by simp [dDiv, hbf0]]
  dsimp only
  rw [show dictGet ecb_rates tc = Except.ok bt from by simp [dictGet, hbt]]
  dsimp only
  rw [show dDiv bt bf = Except.ok (bt / bf) from by simp [dDiv, hbf0]]

/-- Helper: the Crypto → Crypto USDT-bridge branch. -/
theorem convertRoute_cc_usdt
    (fc tc : String) (amount : ℚ) (ecb_rates : Basket) (binance_prices : PriceMap)
    (yahoo : String → String → Option ℚ) (f t : ℚ)
    (hfc : List.lookup fc ecb_rates = none) (htc : List.lookup tc ecb_rates = none)
    (hdir : truthyVal (List.lookup (fc ++ tc) binance_prices) = none)
    (hf : truthyVal (List.lookup (fc ++ "USDT") binance_prices) = some f)
    (ht : truthyVal (List.lookup (tc ++ "USDT") binance_prices) = some t) :
    convertRoute fc tc amount ecb_rates binance_prices yahoo
      = Except.ok ⟨fc, tc, amount, f / t, amount * f / t, "USDT"⟩ := by
  have hcond : ¬ (List.lookup fc ecb_rates).isSome ∧ ¬ (List.lookup tc ecb_rates).isSome := by
    simp [hfc, htc]
  have ht0 : t ≠ 0 := (truthyVal_some_iff.mp ht).2
  unfold convertRoute
  rw [if_pos hcond, hdir, hf, ht]
  dsimp only
  rw [show dDiv (amount * f) t = Except.ok (amount * f / t) from by simp [dDiv, ht0],
      show dDiv f t = Except.ok (f / t) from by simp [dDiv, ht0]]

/-- C8 (amended): the round trip X→Y then Y→X over the same unchanged
provider data recovers the original amount exactly (hence within any
rounding tolerance) when both legs use the `ecb` strategy, or when both legs
use the `USDT` bridge — the two strategy classes whose forward and backward
rates are derived from one shared data source.  (For the strategy classes
with independent per-direction data — `direct` pairs and the `yahoo` pair
provider — no such guarantee holds; see the counterexample.) -/
theorem claim8_round_trip_same_via :
    (∀ (fc tc : String) (a : ℚ) (ecb_rates : Basket) (binance_prices : PriceMap)
       (y1 y2 : String → String → Option ℚ) (bf bt : ℚ),
      List.lookup fc ecb_rates = some bf → List.lookup tc ecb_rates = some bt →
      truthyVal (y1 fc tc) = none → truthyVal (y2 tc fc) = none →
      bf ≠ 0 → bt ≠ 0 →
      convertRoute fc tc a ecb_rates binance_prices y1
        = Except.ok ⟨fc, tc, a, bt / bf, a / bf * bt, "ecb"⟩ ∧
      convertRoute tc fc (a / bf * bt) ecb_rates binance_prices y2
        = Except.ok ⟨tc, fc, a / bf * bt, bf / bt, a / bf * bt / bt * bf, "ecb"⟩ ∧
      a / bf * bt / bt * bf = a)
    ∧ (∀ (fc tc : String) (a : ℚ) (ecb_rates : Basket) (binance_prices : PriceMap)
       (y : String → String → Option ℚ) (f t : ℚ),
      List.lookup fc ecb_rates = none → List.lookup tc ecb_rates = none →
      truthyVal (List.lookup (fc ++ tc) binance_prices) = none →
      truthyVal (List.lookup (tc ++ fc) binance_prices) = none →
      truthyVal (List.lookup (fc ++ "USDT") binance_prices) = some f →
      truthyVal (List.lookup (tc ++ "USDT") binance_prices) = some t →
      convertRoute fc tc a ecb_rates binance_prices y
        = Except.ok ⟨fc, tc, a, f / t, a * f / t, "USDT"⟩ ∧
      convertRoute tc fc (a * f / t) ecb_rates binance_prices y
        = Except.ok ⟨tc, fc, a * f / t, t / f, a * f / t * t / f, "USDT"⟩ ∧
      a * f / t * t / f = a) := by
  constructor
  · intro fc tc a ecb_rates binance_prices y1 y2 bf bt hbf hbt hy1 hy2 hbf0 hbt0
    refine ⟨convertRoute_ff_ecb fc tc a ecb_rates binance_prices y1 bf bt hbf hbt hy1 hbf0,
      convertRoute_ff_ecb tc fc (a / bf * bt) ecb_rates binance_prices y2 bt bf
        hbt hbf hy2 hbt0, ?_⟩
    field_simp
    ring
  · intro fc tc a ecb_rates binance_prices y f t hfc htc hd1 hd2 hf ht
    have hf0 : f ≠ 0 := (truthyVal_some_iff.mp hf).2
    have ht0 : t ≠ 0 := (truthyVal_some_iff.mp ht).2
    refine ⟨convertRoute_cc_usdt fc tc a ecb_rates binance_prices y f t hfc htc hd1 hf ht,
      convertRoute_cc_usdt tc fc (a * f / t) ecb_rates binance_prices y t f
        htc hfc hd2 ht hf, ?_⟩
    field_simp

/-! ### Concrete witnesses and counterexamples

Batteries marks the `Rat` arithmetic operations `@[irreducible]`; for the
kernel to evaluate the embedded functions on concrete inputs with `decide`
they are made semireducible locally in this section. -/

section ConcreteEvaluation

attribute [local semireducible] Rat.mul Rat.inv Rat.add Rat.sub Rat.ofScientific

/-- Witness for C1: the concrete USDT-bridge conversion BTC→ETH with
`BTCUSDT = 60000`, `ETHUSDT = 3000`, amount 1 succeeds with
`rate = converted = 20`, and the claimed `fmt` equation holds there. -/
theorem claim1_witness :
    convert "BTC" "ETH" 1 [] [("BTCUSDT", 60000), ("ETHUSDT", 3000)] (fun _ _ => none)
      = Except.ok ⟨"BTC", "ETH", 1, 20, 20, "USDT"⟩ ∧
    fmt (ConvResult.mk "BTC" "ETH" 1 20 20 "USDT").converted
      = fmt ((ConvResult.mk "BTC" "ETH" 1 20 20 "USDT").amount
          * (ConvResult.mk "BTC" "ETH" 1 20 20 "USDT").rate) :=
  ⟨by decide,
   claim1_converted_eq_amount_times_rate "BTC" "ETH" 1 []
     [("BTCUSDT", 60000), ("ETHUSDT", 3000)] (fun _ _ => none) _ (by decide)⟩

/-- Counterexample to C2 as stated: the direct symbol `BTCETH` *is present*
in the crypto price mapping (with listed price 0), yet the result is not
`via = direct` with that price: the truthiness test skips the direct branch
and the USDT bridge answers with `via = USDT`, `rate = 20`. -/
theorem claim2_counterexample :
    (List.lookup ("BTC" ++ "ETH")
        [("BTCETH", (0:ℚ)), ("BTCUSDT", 60000), ("ETHUSDT", 3000)]).isSome = true ∧
    convertRoute "BTC" "ETH" 1 [] [("BTCETH", 0), ("BTCUSDT", 60000), ("ETHUSDT", 3000)]
        (fun _ _ => none)
      = Except.ok ⟨"BTC", "ETH", 1, 20, 20, "USDT"⟩ ∧
    ¬ ("USDT" = "direct") := by decide

/-- Witness for C2 (amended): with no direct symbol and nonzero USDT legs,
BTC→ETH resolves through the bridge with `rate = 60000 / 3000`. -/
theorem claim2_witness :
    List.lookup "BTC" ([] : Basket) = none ∧
    convertRoute "BTC" "ETH" 1 [] [("BTCUSDT", 60000), ("ETHUSDT", 3000)] (fun _ _ => none)
      = Except.ok ⟨"BTC", "ETH", 1, 60000 / 3000, 1 * 60000 / 3000, "USDT"⟩ :=
  ⟨rfl, ((claim2_crypto_to_crypto "BTC" "ETH" 1 [] [("BTCUSDT", 60000), ("ETHUSDT", 3000)]
      (fun _ _ => none) rfl rfl).2 (by decide)).2 60000 3000 (by decide) (by decide)⟩

/-- Counterexample to C3 as stated: `BTCUSDT` *is present* in the price
mapping (with listed price 0) and the target is USD, yet the request does not
succeed `via = binance` — the truthiness test raises 400 `UnsupportedCrypto`. -/
theorem claim3_counterexample :
    (List.lookup ("BTC" ++ "USDT") [("BTCUSDT", (0:ℚ))]).isSome = true ∧
    convertRoute "BTC" "USD" 1 [("USD", 1)] [("BTCUSDT", 0)] (fun _ _ => none)
      = Except.error ConvError.unsupportedCrypto := by decide

/-- Witness for C3 (amended), which is also the spec's Scenario C:
`from=BTC, to=USD, amount=0.5`, `BTCUSDT=60000` gives `converted = 30000`
(`fmt` string `30000.00000000`, i.e. scaled integer 3000000000000) with
`via = binance`. -/
theorem claim3_witness :
    truthyVal (List.lookup ("BTC" ++ "USDT") [("BTCUSDT", (60000:ℚ))]) = some 60000 ∧
    convertRoute "BTC" "USD" (1/2) [("USD", 108/100), ("EUR", 1)] [("BTCUSDT", 60000)]
        (fun _ _ => none)
      = Except.ok ⟨"BTC", "USD", 1/2, 60000, 1/2 * 60000, "binance"⟩ ∧
    fmt ((1:ℚ)/2 * 60000) = 3000000000000 :=
  ⟨by decide,
   (claim3_crypto_to_fiat_usd "BTC" "USD" (1/2) [("USD", 108/100), ("EUR", 1)]
      [("BTCUSDT", 60000)] (fun _ _ => none) rfl (by decide)).2 60000 (by decide) rfl,
   by decide⟩

/-- Counterexample to C5 as stated: the pair provider *yields a rate* (the
value 0) for USD→EUR, yet the result is not `rate = 0, via = yahoo`: the
truthiness test treats 0 as absent and the basket cross-rate answers
`via = ecb`. -/
theorem claim5_counterexample :
    (fun _ _ => some (0:ℚ)) "USD" "EUR" = some (0:ℚ) ∧
    convertRoute "USD" "EUR" 100 [("USD", 2), ("EUR", 1)] [] (fun _ _ => some 0)
      = Except.ok ⟨"USD", "EUR", 100, 1 / 2, 100 / 2 * 1, "ecb"⟩ ∧
    ¬ ("ecb" = "yahoo") := by decide

/-- Witness for C5 (amended), which is also the spec's Scenario B: USD→EUR,
amount 100, pair provider down, basket `EUR = 1, USD = 1.08` gives
`rate = 1/1.08`, `converted = 100/1.08` (`fmt` string `92.59259259`, scaled
integer 9259259259), `via = ecb`. -/
theorem claim5_witness :
    truthyVal ((fun _ _ => none : String → String → Option ℚ) "USD" "EUR") = none ∧
    convertRoute "USD" "EUR" 100 [("USD", 108/100), ("EUR", 1)] [] (fun _ _ => none)
      = Except.ok ⟨"USD", "EUR", 100, 1 / (108/100), 100 / (108/100) * 1, "ecb"⟩ ∧
    fmt ((100:ℚ) / (108/100) * 1) = 9259259259 :=
  ⟨rfl,
   (claim5_fiat_to_fiat "USD" "EUR" 100 [("USD", 108/100), ("EUR", 1)] []
      (fun _ _ => none) (108/100) 1 rfl (by decide)).2 rfl (by decide),
   by decide⟩

/-- Witness for C9: USD→BTC with amount 0 and `BTCUSDT = 60000` raises the
unhandled `Decimal` zero-divisor error (rate divides `0` by `0 * 60000`). -/
theorem claim9_witness :
    truthyVal (List.lookup ("BTC" ++ "USDT") [("BTCUSDT", (60000:ℚ))]) = some 60000 ∧
    convertRoute "USD" "BTC" 0 [("USD", 1), ("EUR", 1)] [("BTCUSDT", 60000)] (fun _ _ => none)
      = Except.error ConvError.decimalInvalidOperation :=
  ⟨by decide,
   (claim9_zero_amount_division_error "USD" "BTC" [("USD", 1), ("EUR", 1)]
      [("BTCUSDT", 60000)] (fun _ _ => none) 1 60000 rfl rfl (by decide)).2.1 rfl
     (by decide)⟩

/-- Witness for C10: a concrete instance of each of the four truthiness
effects. -/
theorem claim10_witness :
    (convertRoute "BTC" "ETH" 1 [] [("BTCETH", 0), ("BTCUSDT", 60000), ("ETHUSDT", 3000)]
        (fun _ _ => none)
      = Except.ok ⟨"BTC", "ETH", 1, 60000 / 3000, 1 * 60000 / 3000, "USDT"⟩) ∧
    (convertRoute "BTC" "ETH" 1 [] [("BTCUSDT", 0), ("ETHUSDT", 3000)] (fun _ _ => none)
      = Except.error ConvError.unsupportedPair) ∧
    (convertRoute "BTC" "USD" 1 [("USD", 1)] [("BTCUSDT", 0)] (fun _ _ => none)
      = Except.error ConvError.unsupportedCrypto) ∧
    (convertRoute "USD" "EUR" 100 [("USD", 2), ("EUR", 1)] [] (fun _ _ => some 0)
      = Except.ok ⟨"USD", "EUR", 100, 1 / 2, 100 / 2 * 1, "ecb"⟩) :=
  ⟨claim10_zero_treated_as_absent.1 "BTC" "ETH" 1 []
     [("BTCETH", 0), ("BTCUSDT", 60000), ("ETHUSDT", 3000)] (fun _ _ => none) 60000 3000
     rfl rfl (by decide) (by decide) (by decide),
   (claim10_zero_treated_as_absent.2.1 "BTC" "ETH" 1 [] [("BTCUSDT", 0), ("ETHUSDT", 3000)]
     (fun _ _ => none) rfl rfl (by decide) (by decide)).1,
   (claim10_zero_treated_as_absent.2.2.1 "BTC" "USD" 1 [("USD", 1)] [("BTCUSDT", 0)]
     (fun _ _ => none) rfl (by decide) (by decide)).1,
   claim10_zero_treated_as_absent.2.2.2 "USD" "EUR" 100 [("USD", 2), ("EUR", 1)] []
     (fun _ _ => some 0) 2 1 rfl (by decide) rfl (by decide)⟩

/-- Witness for C4: with the basket fetch failing, a basket cached at time 0
is served at time 10^6 (far past the 1-hour TTL) and the request proceeds
with it; with an empty cache even a pure crypto → crypto request (BTC→ETH,
prices available) fails 503. -/
theorem claim4_witness :
    (⟨none, some [("BTCUSDT", 60000)], none⟩ : Upstream).ecbFetch = none ∧
    ¬ ((10^6 : ℚ) - 0 < ECB_TTL) ∧
    handleConvert (10^6) ⟨none, some [("BTCUSDT", 60000)], none⟩
        ⟨⟨some [("EUR", 1), ("USD", 2)], 0⟩, ⟨none, 0⟩, ⟨[], 0⟩⟩ "USD" "EUR" 100
      = convert "USD" "EUR" 100 [("EUR", 1), ("USD", 2)]
          ((get_binance_prices (10^6) (some [("BTCUSDT", 60000)]) ⟨none, 0⟩).1)
          (fun base quote => (get_yahoo_rate base quote (10^6) none ⟨[], 0⟩).1) ∧
    handleConvert (10^6) ⟨none, some [("BTCUSDT", 60000)], none⟩
        ⟨⟨none, 0⟩, ⟨none, 0⟩, ⟨[], 0⟩⟩ "BTC" "ETH" 1
      = Except.error ConvError.serviceUnavailable :=
  ⟨rfl, by decide,
   (claim4_basket_failure_policy (10^6) ⟨none, some [("BTCUSDT", 60000)], none⟩
      ⟨⟨some [("EUR", 1), ("USD", 2)], 0⟩, ⟨none, 0⟩, ⟨[], 0⟩⟩ "USD" "EUR" 100 rfl).1
     [("EUR", 1), ("USD", 2)] rfl (by decide),
   ((claim4_basket_failure_policy (10^6) ⟨none, some [("BTCUSDT", 60000)], none⟩
      ⟨⟨none, 0⟩, ⟨none, 0⟩, ⟨[], 0⟩⟩ "BTC" "ETH" 1 rfl).2.1 (Or.inl rfl)).1⟩

/-- Witness for C6: the pair `AB=X` was stored when the shared timestamp was
0; another pair `CD=X` is fetched at t = 10^6 (cache long stale), refreshing
the shared timestamp; a read of `A`/`B` at 10^6 + 5 is then served from
cache with no fetch, although its own value is 10^6 + 5 seconds old. -/
theorem claim6_witness :
    (List.lookup (yahooKey "A" "B") [("AB=X", (5:ℚ))]).isSome = true ∧
    ¬ ((10^6 : ℚ) - 0 < YAHOO_TTL) ∧
    ((10^6 + 5 : ℚ) - 10^6 < YAHOO_TTL) ∧
    (get_yahoo_rate "A" "B" (10^6 + 5) none
      ((get_yahoo_rate "C" "D" (10^6) (some 7) ⟨[("AB=X", 5)], 0⟩).2.1)).2.2 = 0 :=
  ⟨by decide, by decide, by decide,
   claim6_shared_timestamp_cache.2.2.2 "A" "B" "C" "D" (10^6) 7 (10^6 + 5) none
     ⟨[("AB=X", 5)], 0⟩ (by decide) (by decide) (by decide)⟩

/-- Counterexample to C7 as stated: a *successful* Binance fetch whose body
parses to the empty mapping is cached, but the cached `{}` is dict-falsy, so
a second read 5 seconds later (well within the 10-second TTL) performs a new
upstream fetch. -/
theorem claim7_counterexample :
    (get_binance_prices 0 (some []) ⟨none, 0⟩).2.2 = 1 ∧
    (get_binance_prices 0 (some []) ⟨none, 0⟩).2.1 = ⟨some [], 0⟩ ∧
    ((5:ℚ) - 0 < BINANCE_TTL) ∧
    (get_binance_prices 5 (some [("BTCUSDT", 1)])
      ((get_binance_prices 0 (some []) ⟨none, 0⟩).2.1)).2.2 = 1 := by decide

/-- Witness for C7 (amended): after a successful fetch of a nonempty Binance
snapshot at t = 0, a read at t = 5 fetches nothing and a read at t = 20
fetches exactly once. -/
theorem claim7_witness :
    (get_binance_prices 0 (some [("BTCUSDT", 1)]) ⟨none, 0⟩).2.2 = 1 ∧
    ((5:ℚ) - 0 < BINANCE_TTL) ∧
    (get_binance_prices 5 none
      ((get_binance_prices 0 (some [("BTCUSDT", 1)]) ⟨none, 0⟩).2.1)).2.2 = 0 ∧
    ¬ ((20:ℚ) - 0 < BINANCE_TTL) ∧
    (get_binance_prices 20 none
      ((get_binance_prices 0 (some [("BTCUSDT", 1)]) ⟨none, 0⟩).2.1)).2.2 = 1 :=
  ⟨by decide, by decide,
   (claim7_ttl_freshness.2.1 ⟨none, 0⟩ 0 [("BTCUSDT", 1)] 5 none (by decide)).1
     (by decide) (by decide),
   by decide,
   (claim7_ttl_freshness.2.1 ⟨none, 0⟩ 0 [("BTCUSDT", 1)] 20 none (by decide)).2
     (by decide)⟩

/-- Counterexample to C8 as stated: both legs succeed with the same `via`
strategy class (`yahoo`) against the same unchanged provider data (the pair
provider reports rate 2 in *both* directions), yet USD→EUR then EUR→USD
turns 1 into 4 — not the original amount within 8-decimal rounding
tolerance.  The round-trip property cannot hold for strategy classes whose
two directions are independent data points. -/
theorem claim8_counterexample :
    convertRoute "USD" "EUR" 1 [("USD", 1), ("EUR", 1)] [] (fun _ _ => some 2)
      = Except.ok ⟨"USD", "EUR", 1, 2, 2, "yahoo"⟩ ∧
    convertRoute "EUR" "USD" 2 [("USD", 1), ("EUR", 1)] [] (fun _ _ => some 2)
      = Except.ok ⟨"EUR", "USD", 2, 2, 4, "yahoo"⟩ ∧
    fmt (4:ℚ) ≠ fmt (1:ℚ) := by decide

/-- Witness for C8 (amended): USD→EUR→USD through the basket (`via = ecb`
both ways, basket `USD = 2, EUR = 1`) takes 100 to 50 and back to exactly
100. -/
theorem claim8_witness :
    List.lookup "USD" [("USD", (2:ℚ)), ("EUR", 1)] = some 2 ∧
    (convertRoute "USD" "EUR" 100 [("USD", 2), ("EUR", 1)] [] (fun _ _ => none)
      = Except.ok ⟨"USD", "EUR", 100, 1 / 2, 100 / 2 * 1, "ecb"⟩ ∧
    convertRoute "EUR" "USD" (100 / 2 * 1) [("USD", 2), ("EUR", 1)] [] (fun _ _ => none)
      = Except.ok ⟨"EUR", "USD", 100 / 2 * 1, 2 / 1, 100 / 2 * 1 / 1 * 2, "ecb"⟩ ∧
    (100:ℚ) / 2 * 1 / 1 * 2 = 100) :=
  ⟨rfl,
   claim8_round_trip_same_via.1 "USD" "EUR" 100 [("USD", 2), ("EUR", 1)] []
     (fun _ _ => none) (fun _ _ => none) 2 1 rfl rfl rfl rfl (by decide) (by decide)⟩

end ConcreteEvaluation

end CryptoFiat
